import Mathlib

/-!
Verification of the SolAuditEstimator audit-time estimation pipeline
(`src/lib/auditEstimator.js`) against its natural-language specification.

The JavaScript module is shallowly embedded: strings are Lean `String`s
(lists of characters), JS numbers are `ℚ`, JS objects used as maps are
association lists, fallible steps return `Except`/`Option`, and the
side-effecting orchestrator `getEstimate` is a pure function that also
returns the list of external effects it performed (file reads, catalog
fetch, compiler load) together with the updated version cache.
-/

namespace SolAudit

/-! ## Generic association-list operations (JS object property access) -/

/-- JS property lookup `obj[key]` on an object modelled as an association
list: the first entry with the given key, if any. -/
def lookupKey {α : Type} : List (String × α) → String → Option α
  | [], _ => none
  | (k, v) :: rest, key => if k = key then some v else lookupKey rest key

/-- JS property assignment `obj[key] = v`: an existing key keeps its
position and gets the new value; a new key is appended. -/
def setKey {α : Type} : List (String × α) → String → α → List (String × α)
  | [], key, v => [(key, v)]
  | (k, w) :: rest, key, v =>
    if k = key then (key, v) :: rest else (k, w) :: setKey rest key v

/-! ## String scanning primitives

`source.match(/pat/g)` for a literal pattern counts non-overlapping
occurrences scanning left to right; `/pat/.test(source)` is substring
presence; `s.replace(pat, repl)` for a string pattern replaces the first
occurrence only. -/

/-- Fuel-driven worker for `countOccs`: at a position where the pattern is
a prefix, count one occurrence and resume after it; otherwise advance one
character. The fuel (initialised to the text length) only serves
termination; each step consumes at least one character of text. -/
def countOccsFuel (pat : List Char) : Nat → List Char → Nat
  | 0, _ => 0
  | _ + 1, [] => 0
  | fuel + 1, c :: rest =>
    if pat.isPrefixOf (c :: rest) then
      1 + countOccsFuel pat fuel (rest.drop (pat.length - 1))
    else
      countOccsFuel pat fuel rest

/-- Number of matches of `source.match(/pat/g)` for a literal pattern:
non-overlapping occurrences, scanned left to right. -/
def countOccs (pat source : String) : Nat :=
  countOccsFuel pat.data source.data.length source.data

/-- Substring occurrence on character lists: the pattern is a prefix at
some position of the text. -/
def infixAt (pat : List Char) : List Char → Bool
  | [] => pat.isEmpty
  | c :: rest => pat.isPrefixOf (c :: rest) || infixAt pat rest

/-- `/pat/.test(source)` for a literal pattern: substring presence. -/
def containsSub (pat source : String) : Bool :=
  infixAt pat.data source.data

/-- Worker for `replaceFirst` on character lists. -/
def replaceFirstL (pat repl : List Char) : List Char → List Char
  | [] => []
  | c :: rest =>
    if pat.isPrefixOf (c :: rest) then repl ++ (c :: rest).drop pat.length
    else c :: replaceFirstL pat repl rest

/-- `s.replace(pat, repl)` with a string pattern: replace the first
occurrence of `pat` by `repl`, leaving the rest unchanged. -/
def replaceFirst (pat repl s : String) : String :=
  (replaceFirstL pat.data repl.data s.data).asString

/-- `contractSource.split("\n").length`: one more than the number of
newline characters. -/
def countLines (source : String) : Nat :=
  countOccs "\n" source + 1

/-! ## Version-declaration extraction (`getSolidityVersion`)

The regex `/^pragma solidity (\^?\d+\.\d+\.\d+);/m` is embedded as a
deterministic scanner: at each line start, try to read the literal
`pragma solidity `, an optional caret, three dot-separated nonempty digit
runs, and a semicolon; the capture group is the constraint between the
literal and the semicolon.  Since none of `.`, `;` are digits, the
regex engine's greedy matching with backtracking coincides with this
maximal-munch scanner. -/

/-- Split a leading run of decimal digits from a character list. -/
def takeDigits : List Char → List Char × List Char
  | [] => ([], [])
  | c :: rest =>
    if c.isDigit then
      let t := takeDigits rest
      (c :: t.1, t.2)
    else
      ([], c :: rest)

/-- Parse `\d+\.\d+\.\d+` at the head of the input, returning the matched
characters and the remainder. -/
def parseSemver (cs : List Char) : Option (List Char × List Char) :=
  let t1 := takeDigits cs
  if t1.1.isEmpty then none
  else
    match t1.2 with
    | c1 :: r2 =>
      if c1 = '.' then
        let t2 := takeDigits r2
        if t2.1.isEmpty then none
        else
          match t2.2 with
          | c2 :: r4 =>
            if c2 = '.' then
              let t3 := takeDigits r4
              if t3.1.isEmpty then none
              else some (t1.1 ++ '.' :: t2.1 ++ '.' :: t3.1, t3.2)
            else none
          | [] => none
      else none
    | [] => none

/-- Parse `\^?\d+\.\d+\.\d+` at the head of the input (the capture
group of the version regex). -/
def parseConstraint (cs : List Char) : Option (List Char × List Char) :=
  match cs with
  | [] => none
  | c :: r =>
    if c = '^' then (parseSemver r).map (fun p => ('^' :: p.1, p.2))
    else parseSemver (c :: r)

/-- The literal part of the version-declaration regex. -/
def pragmaLit : List Char := "pragma solidity ".data

/-- Try the full version-declaration pattern anchored at this position
(which must be a line start), returning the captured constraint. -/
def matchPragmaAt (cs : List Char) : Option (List Char) :=
  if pragmaLit.isPrefixOf cs then
    match parseConstraint (cs.drop pragmaLit.length) with
    | some (ver, c :: _) => if c = ';' then some ver else none
    | _ => none
  else none

/-- Scan the text position by position; the `atStart` flag records whether
the current position is a line start (the multiline `^` anchor: position
zero or just after a line terminator).  The first anchored match wins. -/
def scanForPragma : List Char → Bool → Option (List Char)
  | [], _ => none
  | c :: rest, atStart =>
    if atStart then
      match matchPragmaAt (c :: rest) with
      | some v => some v
      | none => scanForPragma rest (c == '\n' || c == '\r')
    else scanForPragma rest (c == '\n' || c == '\r')

/-- `getSolidityVersion`: first match of the version-declaration regex, or
`none` (JS `null`) when the source declares no version. -/
def getSolidityVersion (contractSource : String) : Option String :=
  (scanForPragma contractSource.data true).map List.asString

/-! ## Weight configuration (the module-level `config` literal) -/

/-- The five upgradeability weights, in the object's insertion order. -/
structure UpgradeabilityWeights where
  proxyPattern : ℚ
  storageLayout : ℚ
  adminRights : ℚ
  initialization : ℚ
  interContractConsistency : ℚ
deriving DecidableEq

structure ComplexityFactors where
  functionTime : ℚ
  baseFunctionCount : ℚ
  externalCallTime : ℚ
  importTimePerImport : ℚ
  importTimeFlatRate : ℚ
  assemblyTime : ℚ
  upgradeability : UpgradeabilityWeights
deriving DecidableEq

structure SizeThresholds where
  small : ℚ
  medium : ℚ
deriving DecidableEq

structure BaseTimes where
  small : ℚ
  medium : ℚ
  large : ℚ
deriving DecidableEq

structure Config where
  sizeThresholds : SizeThresholds
  baseTimes : BaseTimes
  complexityFactors : ComplexityFactors
deriving DecidableEq

/-- The built-in default configuration (the `config` literal of
`auditEstimator.js`). The global binding is never reassigned by the
module, so this is the configuration the scoring functions read. -/
def defaultConfig : Config :=
  { sizeThresholds := { small := 200, medium := 1000 }
    baseTimes := { small := 5, medium := 20, large := 50 }
    complexityFactors :=
      { functionTime := 1/2
        baseFunctionCount := 10
        externalCallTime := 2
        importTimePerImport := 3
        importTimeFlatRate := 5
        assemblyTime := 3
        upgradeability :=
          { proxyPattern := 3
            storageLayout := 5
            adminRights := 2
            initialization := 2
            interContractConsistency := 4 } } }

/-! ## Scoring engine -/

/-- `calculateBaseTime`: bucket the line count against the size
thresholds (inclusive upper bounds). -/
def calculateBaseTime (cfg : Config) (lines : Nat) : ℚ :=
  if (lines : ℚ) ≤ cfg.sizeThresholds.small then cfg.baseTimes.small
  else if (lines : ℚ) ≤ cfg.sizeThresholds.medium then cfg.baseTimes.medium
  else cfg.baseTimes.large

/-- One ABI entry; only its `type` tag matters to the scoring engine. -/
structure AbiItem where
  type : String
deriving DecidableEq

/-- One contract unit of the structural artifact: its ABI inventory. -/
structure ContractUnit where
  abi : List AbiItem
deriving DecidableEq

/-- `abi.filter(item => item.type === "function").length`. -/
def countFunctions (u : ContractUnit) : Nat :=
  (u.abi.filter (fun item => item.type == "function")).length

/-- The body of the `for (const contractName in compiledContract)` loop of
`calculateComplexityTime`: one unit's additions to the accumulator. -/
def complexityStep (contractSource : String) (countImports : Bool) (cfg : Config)
    (acc : ℚ) (entry : String × ContractUnit) : ℚ :=
  let afterFunctions := acc +
    cfg.complexityFactors.functionTime *
      max ((countFunctions entry.2 : ℚ) - cfg.complexityFactors.baseFunctionCount) 0
  let afterCalls := afterFunctions +
    cfg.complexityFactors.externalCallTime * (countOccs ".call(" contractSource : ℚ)
  let afterImports :=
    if countImports then
      afterCalls +
        cfg.complexityFactors.importTimePerImport * (countOccs "import" contractSource : ℚ)
    else
      afterCalls + cfg.complexityFactors.importTimeFlatRate
  if containsSub "assembly" contractSource then
    afterImports + cfg.complexityFactors.assemblyTime
  else afterImports

/-- `calculateComplexityTime`: fold the per-unit loop body over the
compiled contract's units, starting from zero. -/
def calculateComplexityTime (contractSource : String)
    (compiledContract : List (String × ContractUnit)) (countImports : Bool)
    (cfg : Config) : ℚ :=
  compiledContract.foldl (complexityStep contractSource countImports cfg) 0

/-- `detectUpgradeable`: any of the three keyword patterns occurs in the
source. -/
def detectUpgradeable (contractSource : String) : Bool :=
  containsSub "delegatecall" contractSource ||
  containsSub "proxy" contractSource ||
  containsSub "initialize" contractSource

/-- `estimateUpgradeabilityComplexity`: zero unless an upgradeability
keyword is present, otherwise `Object.values(factors)` summed in
insertion order. -/
def estimateUpgradeabilityComplexity (contractSource : String) (cfg : Config) : ℚ :=
  if !detectUpgradeable contractSource then 0
  else
    let factors := cfg.complexityFactors.upgradeability
    factors.proxyPattern + factors.storageLayout + factors.adminRights +
      factors.initialization + factors.interContractConsistency

/-! ## Shape of a version constraint

The shape matched by the capture group `\^?\d+\.\d+\.\d+` of the
version-declaration regex, used to state the first-match property of
`getSolidityVersion`. -/

/-- A nonempty run of decimal digits (`\d+`). -/
def DigitRun (d : List Char) : Prop := d ≠ [] ∧ ∀ c ∈ d, c.isDigit = true

/-- Three dot-separated digit runs (`\d+\.\d+\.\d+`). -/
def SemverCore (v : List Char) : Prop :=
  ∃ d1 d2 d3 : List Char, DigitRun d1 ∧ DigitRun d2 ∧ DigitRun d3 ∧
    v = d1 ++ '.' :: d2 ++ '.' :: d3

/-- The full capture-group shape `\^?\d+\.\d+\.\d+`. -/
def ConstraintShape (v : String) : Prop :=
  SemverCore v.data ∨ ∃ w, v.data = '^' :: w ∧ SemverCore w

/-! ## Configuration overlay (`loadConfigFromFile`)

The overlay file is parsed by `JSON.parse` into an untyped document and
merged over the current configuration by a top-level object spread,
`{ ...currentConfig, ...externalConfig }`.  JSON documents are modelled
as `JValue`s; objects are association lists in insertion order. -/

/-- Untyped JSON-ish value: a number or an object. -/
inductive JValue : Type where
  | num : ℚ → JValue
  | obj : List (String × JValue) → JValue

/-- The JS object spread `{ ...base, ...ext }`: keys of `base` keep their
position with values overridden by `ext` where present; keys of `ext` not
in `base` are appended in order.  The override is top-level only — a key
present in `ext` replaces the whole value. -/
def spreadMerge (base ext : List (String × JValue)) : List (String × JValue) :=
  base.map (fun kv => (kv.1, (lookupKey ext kv.1).getD kv.2)) ++
    ext.filter (fun kv => (lookupKey base kv.1).isNone)

/-- The default `config` literal as the untyped document that the spread
in `loadConfigFromFile` operates on. -/
def defaultConfigJ : List (String × JValue) :=
  [("sizeThresholds", JValue.obj [("small", JValue.num 200), ("medium", JValue.num 1000)]),
   ("baseTimes", JValue.obj
      [("small", JValue.num 5), ("medium", JValue.num 20), ("large", JValue.num 50)]),
   ("complexityFactors", JValue.obj
      [("functionTime", JValue.num (1/2)),
       ("baseFunctionCount", JValue.num 10),
       ("externalCallTime", JValue.num 2),
       ("importTimePerImport", JValue.num 3),
       ("importTimeFlatRate", JValue.num 5),
       ("assemblyTime", JValue.num 3),
       ("upgradeability", JValue.obj
          [("proxyPattern", JValue.num 3),
           ("storageLayout", JValue.num 5),
           ("adminRights", JValue.num 2),
           ("initialization", JValue.num 2),
           ("interContractConsistency", JValue.num 4)])])]

/-- `loadConfigFromFile(configPath, currentConfig)`: read and parse the
overlay file, then return the top-level spread of the parsed document
over `currentConfig`.  `readConfig` models `fs.readFileSync` composed
with `JSON.parse` (`none` = unreadable or unparseable); a missing
`configPath` models `readFileSync(undefined)`, which throws.  Any failure
is rethrown as the config-loading error. -/
def loadConfigFromFile (readConfig : String → Option (List (String × JValue)))
    (configPath : Option String) (currentConfig : List (String × JValue)) :
    Except Unit (List (String × JValue)) :=
  match configPath with
  | none => Except.error ()
  | some p =>
    match readConfig p with
    | none => Except.error ()
    | some externalConfig => Except.ok (spreadMerge currentConfig externalConfig)

/-! ## Version resolution with process-wide cache (`getFullVersion`) -/

/-- The module-level `solidityVersionCache`: constraint key to stored
result, where the stored result is the full version string or JS `null`
(`none`) for a catalog miss. -/
abbrev Cache := List (String × Option String)

/-- JS property keys are strings: accessing with a `null` constraint
(`getSolidityVersion` found no declaration) uses the key `"null"`. -/
def jsKey : Option String → String
  | some s => s
  | none => "null"

/-- JS truthiness of a possibly-`null` string value: `null` and the empty
string are falsy. -/
def jsTruthy : Option String → Bool
  | none => false
  | some s => !(s == "")

/-- `version.replace("soljson-", "").replace(".js", "")`. -/
def stripBuildName (filename : String) : String :=
  replaceFirst ".js" "" (replaceFirst "soljson-" "" filename)

/-- Result of one `getFullVersion` call: the returned value, the cache
afterwards, and whether the catalog was fetched over the network. -/
structure ResolveResult where
  value : Option String
  cache : Cache
  fetched : Bool
deriving DecidableEq

/-- `getFullVersion(versionShort, solcListURL)`: if the cache holds a
truthy value for the constraint, return it without fetching; otherwise
fetch the catalog (modelled as the `releases` map the URL serves), map
the constraint to a build filename, strip its decorations (a miss stores
and returns `null`), store the result in the cache, and return it. -/
def getFullVersion (cache : Cache) (versionShort : Option String)
    (catalog : List (String × String)) : ResolveResult :=
  let key := jsKey versionShort
  let cached := (lookupKey cache key).getD none
  if jsTruthy cached then
    { value := cached, cache := cache, fetched := false }
  else
    let fullVersion := (lookupKey catalog key).map stripBuildName
    { value := fullVersion, cache := setKey cache key fullVersion, fetched := true }

/-! ## Compiler bridge and orchestrator (`compileContract`, `getEstimate`) -/

/-- One compiler diagnostic, as consumed by the orchestrator. -/
structure Diagnostic where
  severity : String
  formattedMessage : String
deriving DecidableEq

/-- The parsed compiler output: the `errors` array (empty models both an
absent and an empty JS array, which the guard treats alike) and the
`contracts` map from source unit name to its units. -/
structure CompiledOutput where
  errors : List Diagnostic
  contracts : List (String × List (String × ContractUnit))
deriving DecidableEq

/-- The standard-JSON job built by `compileContract`. -/
structure CompilerInput where
  language : String
  sourceName : String
  sourceContent : String
  optimizerEnabled : Bool
  optimizerRuns : Int
deriving DecidableEq

/-- The input object `compileContract` hands to the compiler. -/
def compilerInput (contractSource : String) (optimizerRuns : Int) : CompilerInput :=
  { language := "Solidity"
    sourceName := "contract.sol"
    sourceContent := contractSource
    optimizerEnabled := decide (0 < optimizerRuns)
    optimizerRuns := optimizerRuns }

/-- External collaborators of one `getEstimate` invocation: filesystem
reads (overlay read+parse and contract read), the version catalog served
by `solcListURL`, and `solc.loadRemoteVersion` (`none` = load error)
yielding a compile function from job to parsed output. -/
structure Env where
  readConfig : String → Option (List (String × JValue))
  readSource : String → Option String
  catalog : List (String × String)
  compiler : Option String → Option (CompilerInput → CompiledOutput)

/-- The `options` argument of `getEstimate`. -/
structure Options where
  configPath : Option String
  contractSourcePath : String
  optimizerRuns : Int
  countImports : Bool

/-- Observable external effects of one `getEstimate` invocation, in
order: overlay file read, contract source read, catalog fetch, remote
compiler load (with the version identifier passed to it). -/
inductive Event : Type where
  | readConfigFile : Option String → Event
  | readSourceFile : String → Event
  | fetchCatalog : Event
  | loadCompiler : Option String → Event
deriving DecidableEq

/-- Terminal failures of one `getEstimate` invocation. The diagnostics
variant carries every formatted message the orchestrator reports before
exiting. -/
inductive PipelineError : Type where
  | configLoadError : PipelineError
  | sourceReadError : PipelineError
  | compilerLoadError : Option String → PipelineError
  | compileDiagnostics : List String → PipelineError
deriving DecidableEq

/-- The printed estimate breakdown. -/
structure Breakdown where
  baseTime : ℚ
  complexityTime : ℚ
  upgradeabilityTime : ℚ
  total : ℚ
deriving DecidableEq

/-- `compileContract(contractSource, solidityVersionFull, optimizerRuns)`:
load the remote compiler for the (possibly `null`) version, then run it
on the standard-JSON job. -/
def compileContract (env : Env) (contractSource : String)
    (solidityVersionFull : Option String) (optimizerRuns : Int) :
    Except PipelineError CompiledOutput :=
  match env.compiler solidityVersionFull with
  | none => Except.error (PipelineError.compilerLoadError solidityVersionFull)
  | some compile => Except.ok (compile (compilerInput contractSource optimizerRuns))

/-- `getEstimate(options)`: load the overlay (result discarded — the
global `config` is never reassigned, so scoring reads the defaults), read
the contract, extract and resolve the version, compile, abort on any
non-empty diagnostics list reporting every message, otherwise score with
the default configuration.  Returns the outcome, the version cache after
the call, and the effect trace. -/
def getEstimate (env : Env) (cache : Cache) (opts : Options) :
    Except PipelineError Breakdown × Cache × List Event :=
  match loadConfigFromFile env.readConfig opts.configPath defaultConfigJ with
  | Except.error _ =>
    (Except.error PipelineError.configLoadError, cache, [Event.readConfigFile opts.configPath])
  | Except.ok _ =>
    match env.readSource opts.contractSourcePath with
    | none =>
      (Except.error PipelineError.sourceReadError, cache,
        [Event.readConfigFile opts.configPath, Event.readSourceFile opts.contractSourcePath])
    | some contractSource =>
      let solidityVersionShort := getSolidityVersion contractSource
      let r := getFullVersion cache solidityVersionShort env.catalog
      let trace :=
        [Event.readConfigFile opts.configPath, Event.readSourceFile opts.contractSourcePath] ++
          (if r.fetched then [Event.fetchCatalog] else []) ++ [Event.loadCompiler r.value]
      match compileContract env contractSource r.value opts.optimizerRuns with
      | Except.error e => (Except.error e, r.cache, trace)
      | Except.ok compiledOutput =>
        if compiledOutput.errors.isEmpty then
          let lines := countLines contractSource
          let baseTime := calculateBaseTime defaultConfig lines
          let units := (lookupKey compiledOutput.contracts "contract.sol").getD []
          let complexityTime :=
            calculateComplexityTime contractSource units opts.countImports defaultConfig
          let upgradeabilityComplexityTime :=
            estimateUpgradeabilityComplexity contractSource defaultConfig
          (Except.ok
            { baseTime := baseTime
              complexityTime := complexityTime
              upgradeabilityTime := upgradeabilityComplexityTime
              total := baseTime + complexityTime + upgradeabilityComplexityTime },
           r.cache, trace)
        else
          (Except.error
            (PipelineError.compileDiagnostics
              (compiledOutput.errors.map Diagnostic.formattedMessage)),
           r.cache, trace)

/-! ## Helper lemmas -/

theorem lookupKey_append {α : Type} (l₁ l₂ : List (String × α)) (k : String) :
    lookupKey (l₁ ++ l₂) k =
      match lookupKey l₁ k with
      | some v => some v
      | none => lookupKey l₂ k := by
  induction l₁ with
  | nil => simp [lookupKey]
  | cons kv rest ih =>
    obtain ⟨k', v⟩ := kv
    by_cases h : k' = k <;> simp [lookupKey, h, ih]

theorem lookupKey_map_override (base ext : List (String × JValue)) (k : String) :
    lookupKey (base.map (fun kv => (kv.1, (lookupKey ext kv.1).getD kv.2))) k =
      (lookupKey base k).map (fun v => (lookupKey ext k).getD v) := by
  induction base with
  | nil => simp [lookupKey]
  | cons kv rest ih =>
    obtain ⟨k', v⟩ := kv
    by_cases h : k' = k
    · subst h; simp [lookupKey]
    · simp [lookupKey, h, ih]

theorem lookupKey_filter_isNone (base ext : List (String × JValue)) (k : String) :
    lookupKey (ext.filter (fun kv => (lookupKey base kv.1).isNone)) k =
      if (lookupKey base k).isNone then lookupKey ext k else none := by
  induction ext with
  | nil => simp [lookupKey]
  | cons kv rest ih =>
    obtain ⟨k', v⟩ := kv
    by_cases h : k' = k
    · subst h
      by_cases hb : (lookupKey base k').isNone <;>
        simp [List.filter_cons, lookupKey, hb, ih]
    · by_cases hb : (lookupKey base k').isNone <;>
        simp [List.filter_cons, lookupKey, h, hb, ih]

theorem lookupKey_setKey_self {α : Type} (c : List (String × α)) (k : String) (v : α) :
    lookupKey (setKey c k v) k = some v := by
  induction c with
  | nil => simp [setKey, lookupKey]
  | cons kv rest ih =>
    obtain ⟨k', w⟩ := kv
    by_cases h : k' = k <;> simp [setKey, lookupKey, h, ih]

theorem complexityStep_shift (src : String) (ci : Bool) (cfg : Config)
    (a : ℚ) (e : String × ContractUnit) :
    complexityStep src ci cfg a e = a + complexityStep src ci cfg 0 e := by
  simp only [complexityStep]
  split_ifs <;> ring

theorem foldl_complexityStep (src : String) (ci : Bool) (cfg : Config) :
    ∀ (l : List (String × ContractUnit)) (a : ℚ),
      l.foldl (complexityStep src ci cfg) a = a + l.foldl (complexityStep src ci cfg) 0 := by
  intro l
  induction l with
  | nil => intro a; simp
  | cons e rest ih =>
    intro a
    simp only [List.foldl_cons]
    rw [ih (complexityStep src ci cfg a e), ih (complexityStep src ci cfg 0 e),
      complexityStep_shift]
    ring

theorem complexityStep_zero (src : String) (ci : Bool) (cfg : Config)
    (e : String × ContractUnit) :
    complexityStep src ci cfg 0 e =
      cfg.complexityFactors.functionTime *
          max ((countFunctions e.2 : ℚ) - cfg.complexityFactors.baseFunctionCount) 0 +
        (cfg.complexityFactors.externalCallTime * (countOccs ".call(" src : ℚ) +
          (if ci then
            cfg.complexityFactors.importTimePerImport * (countOccs "import" src : ℚ)
          else cfg.complexityFactors.importTimeFlatRate) +
          (if containsSub "assembly" src then cfg.complexityFactors.assemblyTime else 0)) := by
  simp only [complexityStep]
  split_ifs <;> ring

/-! ## Claim C1 -/

/-- C1: `calculateComplexityTime` equals the sum over contract units of
`functionTime * max(unitFunctionCount - baseFunctionCount, 0)`, plus the
number of units times each document-level contribution (external-call
term, import term depending on the counting mode, and the assembly term
when the marker is present); an artifact with zero units contributes
exactly zero. -/
theorem calculateComplexityTime_unit_sum (contractSource : String)
    (compiledContract : List (String × ContractUnit)) (countImports : Bool)
    (cfg : Config) :
    calculateComplexityTime contractSource compiledContract countImports cfg =
      (compiledContract.map (fun entry =>
          cfg.complexityFactors.functionTime *
            max ((countFunctions entry.2 : ℚ) - cfg.complexityFactors.baseFunctionCount) 0)).sum
        + (compiledContract.length : ℚ) *
          (cfg.complexityFactors.externalCallTime * (countOccs ".call(" contractSource : ℚ) +
            (if countImports then
              cfg.complexityFactors.importTimePerImport *
                (countOccs "import" contractSource : ℚ)
            else cfg.complexityFactors.importTimeFlatRate) +
            (if containsSub "assembly" contractSource then
              cfg.complexityFactors.assemblyTime
            else 0))
      ∧ calculateComplexityTime contractSource [] countImports cfg = 0 := by
  constructor
  · induction compiledContract with
    | nil => simp [calculateComplexityTime]
    | cons e rest ih =>
      unfold calculateComplexityTime at ih ⊢
      simp only [List.foldl_cons, List.map_cons, List.sum_cons, List.length_cons]
      rw [foldl_complexityStep, ih, complexityStep_zero]
      push_cast
      ring
  · simp [calculateComplexityTime]

/-! ## Claim C2 -/

/-- C2 counterexample: overlaying `{ baseTimes: { small: 9 } }` over the
defaults via the merge of `loadConfigFromFile` drops `baseTimes.medium`
entirely (it is absent from the merged document, not kept at its default
20), because the spread replaces the whole `baseTimes` group. -/
theorem loadConfig_merge_drops_leaf_cex :
    (match lookupKey (spreadMerge defaultConfigJ
        [("baseTimes", JValue.obj [("small", JValue.num 9)])]) "baseTimes" with
      | some (JValue.obj bt) => lookupKey bt "medium"
      | _ => none) = none ∧
    (match lookupKey defaultConfigJ "baseTimes" with
      | some (JValue.obj bt) => lookupKey bt "medium"
      | _ => none) = some (JValue.num 20) ∧
    (match lookupKey (spreadMerge defaultConfigJ
        [("baseTimes", JValue.obj [("small", JValue.num 9)])]) "baseTimes" with
      | some (JValue.obj bt) => lookupKey bt "small"
      | _ => none) = some (JValue.num 9) := by
  exact ⟨rfl, rfl, rfl⟩

/-- C2 (amended): the overlay merge is shallow at the top level only — a
top-level key present in the overlay replaces the whole group by object
replacement, and a top-level key absent from the overlay keeps its
default; leaf keys inside a partially supplied group are not preserved. -/
theorem spreadMerge_top_level_shallow (base ext : List (String × JValue)) (k : String) :
    lookupKey (spreadMerge base ext) k =
      match lookupKey ext k with
      | some v => some v
      | none => lookupKey base k := by
  unfold spreadMerge
  rw [lookupKey_append, lookupKey_map_override, lookupKey_filter_isNone]
  cases he : lookupKey ext k <;> cases hb : lookupKey base k <;> simp [he, hb]

/-! ## Claim C3 -/

/-- C3 counterexample: a constraint whose first resolution is a catalog
miss is cached as `null`; resolving it a second time performs a second
catalog fetch, and a later fetch against a changed catalog document
overwrites the cached value. -/
theorem version_cache_negative_result_cex :
    (getFullVersion (getFullVersion [] (some "^0.9.9") []).cache (some "^0.9.9") []).fetched
      = true ∧
    (getFullVersion [] (some "^0.9.9") []).cache = [("^0.9.9", none)] ∧
    (getFullVersion [("^0.9.9", none)] (some "^0.9.9")
        [("^0.9.9", "soljson-v0.9.9+commit.abcdef12.js")]).cache
      = [("^0.9.9", some "v0.9.9+commit.abcdef12")] := by
  exact ⟨rfl, rfl, rfl⟩

/-- C3 (amended): after a resolution whose result is truthy (a non-null,
nonempty full version), resolving the same constraint again against the
same catalog returns the same value with no second fetch and leaves the
cache unchanged; after a resolution whose result is falsy (a catalog
miss cached as `null`), a second resolution fetches the catalog again,
though against the same catalog document it still returns the same
value. -/
theorem getFullVersion_cache_idempotent (cache : Cache) (versionShort : Option String)
    (catalog : List (String × String)) :
    (jsTruthy (getFullVersion cache versionShort catalog).value = true →
      getFullVersion (getFullVersion cache versionShort catalog).cache versionShort catalog =
        { value := (getFullVersion cache versionShort catalog).value
          cache := (getFullVersion cache versionShort catalog).cache
          fetched := false }) ∧
    (jsTruthy (getFullVersion cache versionShort catalog).value = false →
      (getFullVersion (getFullVersion cache versionShort catalog).cache
          versionShort catalog).fetched = true ∧
      (getFullVersion (getFullVersion cache versionShort catalog).cache
          versionShort catalog).value = (getFullVersion cache versionShort catalog).value) := by
  by_cases h0 : jsTruthy ((lookupKey cache (jsKey versionShort)).getD none) = true
  · have hr : getFullVersion cache versionShort catalog =
        { value := (lookupKey cache (jsKey versionShort)).getD none
          cache := cache
          fetched := false } := by
      simp [getFullVersion, h0]
    refine ⟨fun _ => ?_, fun hfalse => ?_⟩
    · rw [hr]
      simp [getFullVersion, h0]
    · rw [hr] at hfalse
      simp [h0] at hfalse
  · have h0' : jsTruthy ((lookupKey cache (jsKey versionShort)).getD none) = false :=
      Bool.eq_false_iff.mpr h0
    have hr : getFullVersion cache versionShort catalog =
        { value := (lookupKey catalog (jsKey versionShort)).map stripBuildName
          cache := setKey cache (jsKey versionShort)
            ((lookupKey catalog (jsKey versionShort)).map stripBuildName)
          fetched := true } := by
      simp [getFullVersion, h0']
    refine ⟨fun htruthy => ?_, fun hfalsy => ?_⟩
    · rw [hr] at htruthy ⊢
      simp only [] at htruthy
      simp [getFullVersion, lookupKey_setKey_self, htruthy]
    · rw [hr] at hfalsy ⊢
      simp only [] at hfalsy
      simp [getFullVersion, lookupKey_setKey_self, hfalsy]

/-- C3 witness: a successful resolution of `^0.8.0` resolves to a truthy
full version, and re-resolving returns the same value, without fetching
and without touching the cache. -/
theorem getFullVersion_cache_idempotent_witness :
    getFullVersion
        (getFullVersion [] (some "^0.8.0")
          [("^0.8.0", "soljson-v0.8.0+commit.c7dfd78e.js")]).cache
        (some "^0.8.0") [("^0.8.0", "soljson-v0.8.0+commit.c7dfd78e.js")] =
      { value := (getFullVersion [] (some "^0.8.0")
            [("^0.8.0", "soljson-v0.8.0+commit.c7dfd78e.js")]).value
        cache := (getFullVersion [] (some "^0.8.0")
            [("^0.8.0", "soljson-v0.8.0+commit.c7dfd78e.js")]).cache
        fetched := false } :=
  (getFullVersion_cache_idempotent [] (some "^0.8.0")
    [("^0.8.0", "soljson-v0.8.0+commit.c7dfd78e.js")]).1 (by rfl)

/-! ## Claim C4 -/

/-- C4: the upgradeability contribution is exactly zero when none of the
three trigger keywords occurs in the document, and exactly the sum of
all five upgradeability weights when at least one occurs (so extra
trigger keywords cannot change it). -/
theorem upgradeability_zero_or_full_sum (contractSource : String) (cfg : Config) :
    (containsSub "delegatecall" contractSource = false →
      containsSub "proxy" contractSource = false →
      containsSub "initialize" contractSource = false →
      estimateUpgradeabilityComplexity contractSource cfg = 0) ∧
    (containsSub "delegatecall" contractSource = true ∨
      containsSub "proxy" contractSource = true ∨
      containsSub "initialize" contractSource = true →
      estimateUpgradeabilityComplexity contractSource cfg =
        cfg.complexityFactors.upgradeability.proxyPattern +
          cfg.complexityFactors.upgradeability.storageLayout +
          cfg.complexityFactors.upgradeability.adminRights +
          cfg.complexityFactors.upgradeability.initialization +
          cfg.complexityFactors.upgradeability.interContractConsistency) := by
  constructor
  · intro h1 h2 h3
    simp [estimateUpgradeabilityComplexity, detectUpgradeable, h1, h2, h3]
  · intro h
    have hd : detectUpgradeable contractSource = true := by
      rcases h with h | h | h <;> simp [detectUpgradeable, h]
    simp [estimateUpgradeabilityComplexity, hd]

/-- C4 witness: a source with no trigger keyword contributes zero; a
source containing `delegatecall` contributes the full five-weight sum of
the default configuration. -/
theorem upgradeability_zero_or_full_sum_witness :
    estimateUpgradeabilityComplexity "function myFunc() external {}" defaultConfig = 0 ∧
    estimateUpgradeabilityComplexity "x.delegatecall(data)" defaultConfig =
      defaultConfig.complexityFactors.upgradeability.proxyPattern +
        defaultConfig.complexityFactors.upgradeability.storageLayout +
        defaultConfig.complexityFactors.upgradeability.adminRights +
        defaultConfig.complexityFactors.upgradeability.initialization +
        defaultConfig.complexityFactors.upgradeability.interContractConsistency :=
  ⟨(upgradeability_zero_or_full_sum "function myFunc() external {}" defaultConfig).1
      rfl rfl rfl,
    (upgradeability_zero_or_full_sum "x.delegatecall(data)" defaultConfig).2 (Or.inl rfl)⟩

/-! ## Claim C5 -/

/-- C5: the base time is the small base time when the line count is at
most the small threshold (boundary inclusive), the medium base time when
it is above the small threshold and at most the medium threshold, and
the large base time otherwise; at the default thresholds, 200 lines get
the small base time and 201 lines the medium one. -/
theorem baseTime_size_buckets (cfg : Config) (n : Nat) :
    ((n : ℚ) ≤ cfg.sizeThresholds.small → calculateBaseTime cfg n = cfg.baseTimes.small) ∧
    (cfg.sizeThresholds.small < (n : ℚ) → (n : ℚ) ≤ cfg.sizeThresholds.medium →
      calculateBaseTime cfg n = cfg.baseTimes.medium) ∧
    (cfg.sizeThresholds.small < (n : ℚ) → cfg.sizeThresholds.medium < (n : ℚ) →
      calculateBaseTime cfg n = cfg.baseTimes.large) ∧
    calculateBaseTime defaultConfig 200 = defaultConfig.baseTimes.small ∧
    calculateBaseTime defaultConfig 201 = defaultConfig.baseTimes.medium := by
  refine ⟨?_, ?_, ?_, ?_, ?_⟩
  · intro h
    simp [calculateBaseTime, h]
  · intro h1 h2
    simp [calculateBaseTime, not_le.mpr h1, h2]
  · intro h1 h2
    simp [calculateBaseTime, not_le.mpr h1, not_le.mpr h2]
  · norm_num [calculateBaseTime, defaultConfig]
  · norm_num [calculateBaseTime, defaultConfig]

/-- C5 witness: with the default configuration, 100 lines fall in the
small bucket, 500 in the medium bucket and 2000 in the large bucket. -/
theorem baseTime_size_buckets_witness :
    calculateBaseTime defaultConfig 100 = defaultConfig.baseTimes.small ∧
    calculateBaseTime defaultConfig 500 = defaultConfig.baseTimes.medium ∧
    calculateBaseTime defaultConfig 2000 = defaultConfig.baseTimes.large :=
  ⟨(baseTime_size_buckets defaultConfig 100).1 (by norm_num [defaultConfig]),
    (baseTime_size_buckets defaultConfig 500).2.1 (by norm_num [defaultConfig])
      (by norm_num [defaultConfig]),
    (baseTime_size_buckets defaultConfig 2000).2.2.1 (by norm_num [defaultConfig])
      (by norm_num [defaultConfig])⟩

/-! ## Claim C6 -/

/-- C6 counterexample: a compile result whose diagnostics are a single
warning-severity entry still aborts the pipeline (no breakdown is
computed) — severity is never inspected, so a warnings-only result also
makes the artifact unusable. -/
theorem warning_only_diagnostics_abort_cex :
    (getEstimate
        { readConfig := fun _ => some []
          readSource := fun _ => some "pragma solidity 0.8.0;\ncontract C { }"
          catalog := [("0.8.0", "soljson-v0.8.0+commit.abc.js")]
          compiler := fun _ => some (fun _ =>
            { errors := [{ severity := "warning", formattedMessage := "Unused local variable." }]
              contracts := [("contract.sol", [("C", { abi := [] })])] }) }
        []
        { configPath := some "cfg.json", contractSourcePath := "c.sol"
          optimizerRuns := 0, countImports := false }).1
      = Except.error (PipelineError.compileDiagnostics ["Unused local variable."]) := by
  exact rfl

/-- C6 (amended): whenever the compile result's diagnostics list is
non-empty — regardless of severity, so in particular whenever it contains
an error-severity diagnostic — the pipeline aborts without computing a
breakdown and the failure carries every formatted message of the list,
not just the first. -/
theorem nonempty_diagnostics_abort_all_reported (env : Env) (cache : Cache)
    (opts : Options) (p : String) (overlay : List (String × JValue))
    (contractSource : String) (compile : CompilerInput → CompiledOutput)
    (hpath : opts.configPath = some p)
    (hconf : env.readConfig p = some overlay)
    (hsrc : env.readSource opts.contractSourcePath = some contractSource)
    (hcomp : env.compiler
        (getFullVersion cache (getSolidityVersion contractSource) env.catalog).value
      = some compile)
    (herr : (compile (compilerInput contractSource opts.optimizerRuns)).errors ≠ []) :
    (getEstimate env cache opts).1 =
      Except.error (PipelineError.compileDiagnostics
        ((compile (compilerInput contractSource opts.optimizerRuns)).errors.map
          Diagnostic.formattedMessage)) := by
  have hne : (compile (compilerInput contractSource opts.optimizerRuns)).errors.isEmpty
      = false := by
    cases he : (compile (compilerInput contractSource opts.optimizerRuns)).errors with
    | nil => exact absurd he herr
    | cons d ds => rfl
  simp [getEstimate, loadConfigFromFile, compileContract, hpath, hconf, hsrc, hcomp, hne]

/-- C6 witness: a compile result with two error-severity diagnostics
aborts the pipeline with both messages reported, in order. -/
theorem nonempty_diagnostics_abort_all_reported_witness :
    (getEstimate
        { readConfig := fun _ => some []
          readSource := fun _ => some "pragma solidity 0.8.0;\ncontract C { }"
          catalog := [("0.8.0", "soljson-v0.8.0+commit.abc.js")]
          compiler := fun _ => some (fun _ =>
            { errors := [{ severity := "error", formattedMessage := "ParserError: Expected ';'" },
                { severity := "error", formattedMessage := "DeclarationError: Undeclared identifier." }]
              contracts := [] }) }
        []
        { configPath := some "cfg.json", contractSourcePath := "c.sol"
          optimizerRuns := 0, countImports := false }).1
      = Except.error (PipelineError.compileDiagnostics
          ["ParserError: Expected ';'", "DeclarationError: Undeclared identifier."]) :=
  nonempty_diagnostics_abort_all_reported _ _ _ "cfg.json" []
    "pragma solidity 0.8.0;\ncontract C { }"
    (fun _ =>
      { errors := [{ severity := "error", formattedMessage := "ParserError: Expected ';'" },
          { severity := "error", formattedMessage := "DeclarationError: Undeclared identifier." }]
        contracts := [] })
    rfl rfl rfl rfl (by simp)

/-! ## Claim C7 -/

/-- C7 counterexample: with a constraint (`^0.9.9`) absent from the
catalog, the pipeline still fetches the catalog, resolves to `null`, and
then loads and would invoke the compiler for the `null` version —
compilation is attempted, and the resulting failure is a compiler-load
failure, not a version-not-found failure raised before compilation. -/
theorem missing_catalog_entry_cex :
    (getEstimate
        { readConfig := fun _ => some []
          readSource := fun _ => some "pragma solidity ^0.9.9;\ncontract C { }"
          catalog := [("0.8.0", "soljson-v0.8.0+commit.abc.js")]
          compiler := fun _ => none }
        []
        { configPath := some "cfg.json", contractSourcePath := "c.sol"
          optimizerRuns := 0, countImports := false }).2.2
      = [Event.readConfigFile (some "cfg.json"), Event.readSourceFile "c.sol",
          Event.fetchCatalog, Event.loadCompiler none] ∧
    (getEstimate
        { readConfig := fun _ => some []
          readSource := fun _ => some "pragma solidity ^0.9.9;\ncontract C { }"
          catalog := [("0.8.0", "soljson-v0.8.0+commit.abc.js")]
          compiler := fun _ => none }
        []
        { configPath := some "cfg.json", contractSourcePath := "c.sol"
          optimizerRuns := 0, countImports := false }).1
      = Except.error (PipelineError.compilerLoadError none) := by
  exact ⟨rfl, rfl⟩

/-- C7 (amended): when the extracted constraint has no catalog entry and
no truthy cache entry, resolution returns `null` and the pipeline
proceeds to load the compiler with the `null` version — the catalog fetch
and the compiler-load attempt both appear in the effect trace; no
version-not-found failure precedes compilation. -/
theorem missing_catalog_entry_attempts_compile (env : Env) (cache : Cache)
    (opts : Options) (p : String) (overlay : List (String × JValue))
    (contractSource : String)
    (hpath : opts.configPath = some p)
    (hconf : env.readConfig p = some overlay)
    (hsrc : env.readSource opts.contractSourcePath = some contractSource)
    (hmiss : lookupKey env.catalog (jsKey (getSolidityVersion contractSource)) = none)
    (hnocache : lookupKey cache (jsKey (getSolidityVersion contractSource)) = none) :
    Event.fetchCatalog ∈ (getEstimate env cache opts).2.2 ∧
    Event.loadCompiler none ∈ (getEstimate env cache opts).2.2 := by
  have hres : getFullVersion cache (getSolidityVersion contractSource) env.catalog =
      { value := none
        cache := setKey cache (jsKey (getSolidityVersion contractSource)) none
        fetched := true } := by
    simp [getFullVersion, hnocache, hmiss, jsTruthy]
  cases hc : env.compiler none with
  | none =>
    simp [getEstimate, loadConfigFromFile, compileContract, hpath, hconf, hsrc, hres, hc]
  | some compile =>
    by_cases he : (compile (compilerInput contractSource opts.optimizerRuns)).errors.isEmpty
      = true <;>
      simp [getEstimate, loadConfigFromFile, compileContract, hpath, hconf, hsrc, hres,
        hc, he]

/-- C7 witness: a concrete run with an empty catalog fetches the catalog
and attempts the compiler load with the `null` version. -/
theorem missing_catalog_entry_attempts_compile_witness :
    Event.fetchCatalog ∈
      (getEstimate
        { readConfig := fun _ => some []
          readSource := fun _ => some "pragma solidity ^0.4.26;\ncontract C { }"
          catalog := []
          compiler := fun _ => none }
        []
        { configPath := some "cfg.json", contractSourcePath := "c.sol"
          optimizerRuns := 0, countImports := false }).2.2 ∧
    Event.loadCompiler none ∈
      (getEstimate
        { readConfig := fun _ => some []
          readSource := fun _ => some "pragma solidity ^0.4.26;\ncontract C { }"
          catalog := []
          compiler := fun _ => none }
        []
        { configPath := some "cfg.json", contractSourcePath := "c.sol"
          optimizerRuns := 0, countImports := false }).2.2 :=
  missing_catalog_entry_attempts_compile _ _ _ "cfg.json" [] _ rfl rfl rfl rfl rfl

/-! ## Claim C9 -/

/-- C9: `loadConfigFromFile` builds a fresh merged document and
`getEstimate` discards it, so for every overlay document that loads
successfully the computed breakdown is exactly the one the scoring
engine produces from the built-in default configuration — overlay
content never influences the result. -/
theorem breakdown_ignores_overlay (env : Env) (cache : Cache) (opts : Options)
    (p : String) (contractSource : String) (compile : CompilerInput → CompiledOutput)
    (hpath : opts.configPath = some p)
    (hsrc : env.readSource opts.contractSourcePath = some contractSource)
    (hcomp : env.compiler
        (getFullVersion cache (getSolidityVersion contractSource) env.catalog).value
      = some compile)
    (hnoerr : (compile (compilerInput contractSource opts.optimizerRuns)).errors = []) :
    ∀ overlay : List (String × JValue),
      (getEstimate { env with readConfig := fun _ => some overlay } cache opts).1 =
        Except.ok
          { baseTime := calculateBaseTime defaultConfig (countLines contractSource)
            complexityTime := calculateComplexityTime contractSource
              ((lookupKey (compile (compilerInput contractSource opts.optimizerRuns)).contracts
                "contract.sol").getD []) opts.countImports defaultConfig
            upgradeabilityTime :=
              estimateUpgradeabilityComplexity contractSource defaultConfig
            total := calculateBaseTime defaultConfig (countLines contractSource) +
              calculateComplexityTime contractSource
                ((lookupKey (compile (compilerInput contractSource opts.optimizerRuns)).contracts
                  "contract.sol").getD []) opts.countImports defaultConfig +
              estimateUpgradeabilityComplexity contractSource defaultConfig } := by
  intro overlay
  simp [getEstimate, loadConfigFromFile, compileContract, hpath, hsrc, hcomp, hnoerr]

/-- C9 witness: with a fixed source and compiler, the run overlaid with
`{ baseTimes: { small: 9 } }` produces the breakdown computed from the
built-in defaults. -/
theorem breakdown_ignores_overlay_witness :
    (getEstimate
        { ({ readConfig := fun _ => some []
             readSource := fun _ => some "pragma solidity 0.8.0;\ncontract C { }"
             catalog := [("0.8.0", "soljson-v0.8.0+commit.abc.js")]
             compiler := fun _ => some (fun _ =>
               { errors := [], contracts := [("contract.sol", [("C", { abi := [] })])] }) } : Env)
          with readConfig := fun _ =>
            some [("baseTimes", JValue.obj [("small", JValue.num 9)])] }
        []
        { configPath := some "cfg.json", contractSourcePath := "c.sol"
          optimizerRuns := 0, countImports := false }).1
      = Except.ok
          { baseTime := calculateBaseTime defaultConfig
              (countLines "pragma solidity 0.8.0;\ncontract C { }")
            complexityTime := calculateComplexityTime "pragma solidity 0.8.0;\ncontract C { }"
              [("C", { abi := [] })] false defaultConfig
            upgradeabilityTime := estimateUpgradeabilityComplexity
              "pragma solidity 0.8.0;\ncontract C { }" defaultConfig
            total := calculateBaseTime defaultConfig
                (countLines "pragma solidity 0.8.0;\ncontract C { }") +
              calculateComplexityTime "pragma solidity 0.8.0;\ncontract C { }"
                [("C", { abi := [] })] false defaultConfig +
              estimateUpgradeabilityComplexity
                "pragma solidity 0.8.0;\ncontract C { }" defaultConfig } :=
  breakdown_ignores_overlay _ _ _ "cfg.json" "pragma solidity 0.8.0;\ncontract C { }"
    (fun _ => { errors := [], contracts := [("contract.sol", [("C", { abi := [] })])] })
    rfl rfl rfl rfl [("baseTimes", JValue.obj [("small", JValue.num 9)])]

/-! ## Claim C10 -/

/-- C10: when no overlay path is supplied, `loadConfigFromFile` is still
called with the undefined path, whose file read throws, so the run fails
with the config-loading error and nothing else happens — in particular
the contract source is never read (the effect trace holds only the
overlay-read attempt), making the nominally optional overlay file
effectively mandatory. -/
theorem absent_configPath_fails_before_source_read (env : Env) (cache : Cache)
    (opts : Options) (h : opts.configPath = none) :
    getEstimate env cache opts =
      (Except.error PipelineError.configLoadError, cache, [Event.readConfigFile none]) := by
  simp [getEstimate, loadConfigFromFile, h]

/-- C10 witness: a concrete run with an absent overlay path fails with
the config-loading error before any other effect, even though the
contract file itself is readable. -/
theorem absent_configPath_fails_before_source_read_witness :
    getEstimate
        { readConfig := fun _ => some []
          readSource := fun _ => some "pragma solidity 0.8.0;\ncontract C { }"
          catalog := [("0.8.0", "soljson-v0.8.0+commit.abc.js")]
          compiler := fun _ => some (fun _ => { errors := [], contracts := [] }) }
        []
        { configPath := none, contractSourcePath := "c.sol"
          optimizerRuns := 0, countImports := false }
      = (Except.error PipelineError.configLoadError, [], [Event.readConfigFile none]) :=
  absent_configPath_fails_before_source_read _ _ _ rfl

/-! ## Claim C8: parser lemmas -/

theorem takeDigits_digits_append (d : List Char) (hd : ∀ c ∈ d, c.isDigit = true)
    (c : Char) (hc : c.isDigit = false) (r : List Char) :
    takeDigits (d ++ c :: r) = (d, c :: r) := by
  induction d with
  | nil => simp [takeDigits, hc]
  | cons a as ih =>
    have ha : a.isDigit = true := hd a (List.mem_cons_self a as)
    have ih' := ih fun x hx => hd x (List.mem_cons_of_mem a hx)
    simp [takeDigits, ha, ih']

theorem parseSemver_append (d1 d2 d3 : List Char)
    (h1 : DigitRun d1) (h2 : DigitRun d2) (h3 : DigitRun d3)
    (c : Char) (hc : c.isDigit = false) (r : List Char) :
    parseSemver (d1 ++ '.' :: (d2 ++ '.' :: (d3 ++ c :: r))) =
      some (d1 ++ '.' :: d2 ++ '.' :: d3, c :: r) := by
  obtain ⟨h1ne, h1d⟩ := h1
  obtain ⟨h2ne, h2d⟩ := h2
  obtain ⟨h3ne, h3d⟩ := h3
  have e1 := takeDigits_digits_append d1 h1d '.' (by decide)
    (d2 ++ '.' :: (d3 ++ c :: r))
  have e2 := takeDigits_digits_append d2 h2d '.' (by decide) (d3 ++ c :: r)
  have e3 := takeDigits_digits_append d3 h3d c hc r
  have f1 : d1.isEmpty = false := List.isEmpty_eq_false.mpr h1ne
  have f2 : d2.isEmpty = false := List.isEmpty_eq_false.mpr h2ne
  have f3 : d3.isEmpty = false := List.isEmpty_eq_false.mpr h3ne
  simp [parseSemver, e1, e2, e3, f1, f2, f3]

theorem parseConstraint_append (v rest : List Char)
    (hv : SemverCore v ∨ ∃ w, v = '^' :: w ∧ SemverCore w) :
    parseConstraint (v ++ ';' :: rest) = some (v, ';' :: rest) := by
  rcases hv with ⟨d1, d2, d3, h1, h2, h3, hv⟩ | ⟨w, hvw, d1, d2, d3, h1, h2, h3, hw⟩
  · subst hv
    obtain ⟨a, as, rfl⟩ : ∃ a as, d1 = a :: as := by
      cases d1 with
      | nil => exact absurd rfl h1.1
      | cons a as => exact ⟨a, as, rfl⟩
    have hadig : a.isDigit = true := h1.2 a (List.mem_cons_self a as)
    have hane : ¬ a = '^' := by
      intro hcontra
      subst hcontra
      exact absurd hadig (by decide)
    have harg : ((a :: as) ++ '.' :: d2 ++ '.' :: d3) ++ ';' :: rest =
        a :: (as ++ '.' :: (d2 ++ '.' :: (d3 ++ ';' :: rest))) := by
      simp [List.append_assoc]
    rw [harg]
    simp only [parseConstraint]
    rw [if_neg hane]
    have hps := parseSemver_append (a :: as) d2 d3 h1 h2 h3 ';' (by decide) rest
    simpa [List.append_assoc] using hps
  · subst hvw
    subst hw
    have harg : (('^' :: (d1 ++ '.' :: d2 ++ '.' :: d3)) ++ ';' :: rest) =
        '^' :: (d1 ++ '.' :: (d2 ++ '.' :: (d3 ++ ';' :: rest))) := by
      simp [List.append_assoc]
    rw [harg]
    simp only [parseConstraint, if_pos]
    rw [parseSemver_append d1 d2 d3 h1 h2 h3 ';' (by decide) rest]
    simp

theorem matchPragmaAt_append (v rest : List Char)
    (hv : SemverCore v ∨ ∃ w, v = '^' :: w ∧ SemverCore w) :
    matchPragmaAt (pragmaLit ++ (v ++ ';' :: rest)) = some v := by
  have hpre : pragmaLit.isPrefixOf (pragmaLit ++ (v ++ ';' :: rest)) = true := by
    rw [List.isPrefixOf_iff_prefix]
    exact List.prefix_append _ _
  have hdrop : (pragmaLit ++ (v ++ ';' :: rest)).drop pragmaLit.length =
      v ++ ';' :: rest :=
    List.drop_left _ _
  simp only [matchPragmaAt, hpre, if_true, hdrop, parseConstraint_append v rest hv]

theorem scanForPragma_head_match (cs : List Char) (v : List Char) (hne : cs ≠ [])
    (h : matchPragmaAt cs = some v) :
    scanForPragma cs true = some v := by
  cases cs with
  | nil => exact absurd rfl hne
  | cons c rest => simp [scanForPragma, h]

/-! ## Claim C8 -/

/-- C8 counterexample: for a source with no version declaration,
extraction yields JS `null`, yet the pipeline does not stop with a
missing-version signal — it proceeds to version resolution (catalog
fetch) and to the compiler load with the `null` version, and can even
complete scoring successfully. -/
theorem missing_version_declaration_cex :
    getSolidityVersion "contract C {}" = none ∧
    (getEstimate
        { readConfig := fun _ => some []
          readSource := fun _ => some "contract C {}"
          catalog := []
          compiler := fun _ => some (fun _ =>
            { errors := [], contracts := [("contract.sol", [("C", { abi := [] })])] }) }
        []
        { configPath := some "cfg.json", contractSourcePath := "c.sol"
          optimizerRuns := 0, countImports := false }).2.2
      = [Event.readConfigFile (some "cfg.json"), Event.readSourceFile "c.sol",
          Event.fetchCatalog, Event.loadCompiler none] ∧
    (match (getEstimate
        { readConfig := fun _ => some []
          readSource := fun _ => some "contract C {}"
          catalog := []
          compiler := fun _ => some (fun _ =>
            { errors := [], contracts := [("contract.sol", [("C", { abi := [] })])] }) }
        []
        { configPath := some "cfg.json", contractSourcePath := "c.sol"
          optimizerRuns := 0, countImports := false }).1 with
      | Except.ok _ => true
      | Except.error _ => false) = true := by
  exact ⟨rfl, rfl, rfl⟩

/-- C8 (amended): constraint extraction returns the capture of the first
matching version-declaration line, whatever follows it; but when the
source contains no version declaration, extraction yields `null` and the
pipeline proceeds — it fetches the catalog to resolve the `null`
constraint and attempts the compiler load — instead of signalling a
missing version declaration. -/
theorem version_extraction_first_match_then_proceed :
    (∀ v rest : String, ConstraintShape v →
      getSolidityVersion ("pragma solidity " ++ v ++ ";" ++ rest) = some v) ∧
    (∀ (env : Env) (cache : Cache) (opts : Options) (p : String)
      (overlay : List (String × JValue)) (contractSource : String),
      opts.configPath = some p → env.readConfig p = some overlay →
      env.readSource opts.contractSourcePath = some contractSource →
      getSolidityVersion contractSource = none →
      lookupKey cache "null" = none →
      Event.fetchCatalog ∈ (getEstimate env cache opts).2.2 ∧
      Event.loadCompiler ((lookupKey env.catalog "null").map stripBuildName) ∈
        (getEstimate env cache opts).2.2) := by
  constructor
  · intro v rest hv
    have hdata : ("pragma solidity " ++ v ++ ";" ++ rest).data =
        pragmaLit ++ (v.data ++ ';' :: rest.data) := by
      simp only [String.data_append, List.append_assoc]
      rfl
    have hne : pragmaLit ++ (v.data ++ ';' :: rest.data) ≠ [] := by
      have hlit : pragmaLit = 'p' :: "ragma solidity ".data := rfl
      rw [hlit]
      simp
    have hscan := scanForPragma_head_match _ v.data hne
      (matchPragmaAt_append v.data rest.data hv)
    simp only [getSolidityVersion, hdata, hscan, Option.map_some]
    exact congrArg some (String.asString_toList v)
  · intro env cache opts p overlay contractSource hpath hconf hsrc hnover hnocache
    have hres : getFullVersion cache (getSolidityVersion contractSource) env.catalog =
        { value := (lookupKey env.catalog "null").map stripBuildName
          cache := setKey cache "null" ((lookupKey env.catalog "null").map stripBuildName)
          fetched := true } := by
      rw [hnover]
      simp [getFullVersion, jsKey, hnocache, jsTruthy]
    cases hc : env.compiler ((lookupKey env.catalog "null").map stripBuildName) with
    | none =>
      simp [getEstimate, loadConfigFromFile, compileContract, hpath, hconf, hsrc, hres, hc]
    | some compile =>
      by_cases he : (compile (compilerInput contractSource opts.optimizerRuns)).errors.isEmpty
        = true <;>
        simp [getEstimate, loadConfigFromFile, compileContract, hpath, hconf, hsrc, hres,
          hc, he]

/-- C8 witness: the first declaration (`^0.8.0`) wins over a later one
(`0.7.6`), and a concrete pragma-less run fetches the catalog and
attempts the compiler load with the `null` version. -/
theorem version_extraction_first_match_then_proceed_witness :
    getSolidityVersion
        ("pragma solidity " ++ "^0.8.0" ++ ";" ++ "\npragma solidity 0.7.6;\ncontract C {}")
      = some "^0.8.0" ∧
    (Event.fetchCatalog ∈
      (getEstimate
        { readConfig := fun _ => some []
          readSource := fun _ => some "contract D {}"
          catalog := []
          compiler := fun _ => none }
        []
        { configPath := some "cfg.json", contractSourcePath := "d.sol"
          optimizerRuns := 0, countImports := false }).2.2 ∧
    Event.loadCompiler none ∈
      (getEstimate
        { readConfig := fun _ => some []
          readSource := fun _ => some "contract D {}"
          catalog := []
          compiler := fun _ => none }
        []
        { configPath := some "cfg.json", contractSourcePath := "d.sol"
          optimizerRuns := 0, countImports := false }).2.2) :=
  ⟨version_extraction_first_match_then_proceed.1 "^0.8.0"
      "\npragma solidity 0.7.6;\ncontract C {}"
      (Or.inr ⟨"0.8.0".data, rfl,
        ⟨['0'], ['8'], ['0'], ⟨by decide, by decide⟩, ⟨by decide, by decide⟩,
          ⟨by decide, by decide⟩, by decide⟩⟩),
    version_extraction_first_match_then_proceed.2
      { readConfig := fun _ => some []
        readSource := fun _ => some "contract D {}"
        catalog := []
        compiler := fun _ => none }
      []
      { configPath := some "cfg.json", contractSourcePath := "d.sol"
        optimizerRuns := 0, countImports := false }
      "cfg.json" [] "contract D {}" rfl rfl rfl rfl rfl⟩

end SolAudit
